import Mathlib

/-!
Verification development for the flink-notebooks repository.

The embedding covers the two core components named by the specification:

* ClusterManager (vscode-extension/src/services/clusterManager.ts): the
  runtime supervisor with its status field, process handle, crash handler
  registry, start/stop protocols and the readiness probe (waitForGateway).

* FlinkNotebookController / SessionManager
  (vscode-extension/src/providers/catalogTreeProvider.ts, second document):
  the statement execution pipeline of fetchResults (status polling,
  result-page classification loop, batch fetching), the streaming loop of
  fetchStreamingResults with its external pause/resume/stop/cancel
  controls, and SessionManager.closeSession over the SqlGatewayClient.

Remote endpoints (SQL gateway HTTP API, the child process, timers) are
modelled as oracles and scripts; network requests and sleeps performed by
the embedded code are recorded in explicit call traces.  Display-only
effects (console logging, notebook cell output rendering, metadata and
UI-context updates) are elided from the traces; result snapshots that the
code renders into the cell are kept, since several claims constrain them.
-/

deriving instance DecidableEq for Except

namespace FlinkNotebooks

/-! ## Shared call trace

Every remote round trip or timer wait performed by the embedded client
code is recorded as one entry.  Entries for fetches carry the cursor
token used, so claims about cursor movement can read it off the trace. -/

inductive Call
  | getStatus
  | fetch (token : Nat)
  | sleep (ms : Nat)
  | cancelCall
  | closeSess
deriving DecidableEq, Repr

def Call.isFetch : Call → Bool
  | .fetch _ => true
  | _ => false

def Call.isRemote : Call → Bool
  | .getStatus => true
  | .fetch _ => true
  | .cancelCall => true
  | .closeSess => true
  | .sleep _ => false

/-! ## ClusterManager (clusterManager.ts)

The status enum, the crash handler registry, the process exit and error
observers, stop, and start with its readiness probe. -/

inductive ClusterStatus
  | stopped
  | starting
  | running
  | stopping
  | errored
deriving DecidableEq, Repr

/-- A crash handler receives the best-known exit code (none for a
spawn-level error) and may itself throw. -/
def CrashHandler : Type := Option Int → Except String Unit

/-- notifyCrashHandlers (lines 157-165): iterate the registered handlers
in order; each call is wrapped in try/catch, so a throwing handler is
logged and the iteration continues with the next handler.  The returned
list is the log of per-handler outcomes, one per registered handler. -/
def notifyCrashHandlers : List CrashHandler → Option Int → List (Except String Unit)
  | [], _ => []
  | h :: rest, exitCode => h exitCode :: notifyCrashHandlers rest exitCode

/-- The crash predicate of the exit observer (line 287):
wasRunning AND NOT wasStopping AND (code is not 0 OR a signal killed the
process).  In the source, code null compares unequal to 0, so a
signal-kill (code null, signal set) satisfies the disjunction twice. -/
def exitUnexpected (status : ClusterStatus) (code : Option Int) (signal : Bool) : Bool :=
  (status == .running) && !(status == .stopping) && (!(code == some 0) || signal)

/-- The body of the process exit observer (lines 276-304), reduced to the
status change and the crash broadcast: on an unexpected crash the status
becomes errored and every handler is notified with the observed code;
otherwise the status is reset to stopped and nobody is notified. -/
def handleExit (status : ClusterStatus) (code : Option Int) (signal : Bool)
    (handlers : List CrashHandler) : ClusterStatus × List (Except String Unit) :=
  if exitUnexpected status code signal then
    (.errored, notifyCrashHandlers handlers code)
  else
    (.stopped, [])

/-- The body of the process error observer (lines 265-274): a spawn-level
failure sets the status to errored and notifies every handler with no
exit code. -/
def handleError (_status : ClusterStatus) (handlers : List CrashHandler) :
    ClusterStatus × List (Except String Unit) :=
  (.errored, notifyCrashHandlers handlers none)

/-- The child process handle as the manager sees it.  The exitCode field
mirrors ChildProcess.exitCode.  Node assigns exitCode and emits the exit
event in the same internal callback, so from the supervisor code the two
are one atomic step: delivery of the exit event runs the exit observer,
which clears the manager's process field (lines 302-303). -/
structure Handle where
  exitCode : Option Int
deriving DecidableEq, Repr

structure CMState where
  status : ClusterStatus
  proc : Option Handle
  /-- Every status write old -> new with old other than new, in order. -/
  trans : List (ClusterStatus × ClusterStatus)
deriving DecidableEq, Repr

def initCM : CMState := ⟨.stopped, none, []⟩

/-- Record a status assignment, logging the edge when the value changes. -/
def setStatus (s : CMState) (st : ClusterStatus) : CMState :=
  if s.status = st then s
  else { s with status := st, trans := s.trans ++ [(s.status, st)] }

/-- Delivery of the process exit event: runs the exit observer.  Only a
live child delivers events; the observer clears the process field, so a
second exit event for the same child is impossible. -/
def exitEvent (s : CMState) (code : Option Int) (signal : Bool) : CMState :=
  match s.proc with
  | none => s
  | some _ =>
    let s := setStatus s (if exitUnexpected s.status code signal then .errored else .stopped)
    { s with proc := none }

/-- Delivery of the process error event (spawn-level failure): status
becomes errored; the process field is not cleared by this observer. -/
def errorEvent (s : CMState) : CMState :=
  match s.proc with
  | none => s
  | some _ => setStatus s .errored

/-- ClusterManager.stop (lines 319-363).  Already stopped: no-op.
Otherwise the status becomes stopping; with no process handle the
kill/wait block is skipped entirely and the method returns with the
status still stopping.  With a live handle, SIGTERM is sent and the exit
observer fires within the grace window (or after the forced SIGKILL,
which resolves the same way); the finally block then clears the handle
and sets the status to stopped. -/
def ClusterManager.stop (s : CMState) : CMState :=
  if s.status = .stopped then s
  else
    let s := setStatus s .stopping
    match s.proc with
    | none => s
    | some _ =>
      let s := exitEvent s none true
      setStatus { s with proc := none } .stopped

/-- One observable step of the readiness probe window: either a probe
attempt (the gateway answers ready or not) or the asynchronous delivery
of a process exit or error event during the inter-probe sleep. -/
inductive Tick
  | ready
  | notReady
  | tExit (code : Option Int) (signal : Bool)
  | tError
deriving DecidableEq, Repr

inductive StartErr
  | alreadyRunning
  | jarMissing
  | confMissing
  /-- The early-abort branch of waitForGateway (lines 373-378): thrown
  when the loop sees a live handle with a recorded exit code. -/
  | procDeath (code : Option Int)
  /-- The timeout error thrown after the probe window elapses
  (lines 406-410). -/
  | gatewayTimeout
deriving DecidableEq, Repr

/-- waitForGateway (lines 365-411).  Each probe iteration first checks
whether the tracked process has died (process field set and exitCode
recorded) and aborts with procDeath if so; then the liveness endpoint is
probed.  Exhausting the script is the 30-second timeout: stop() is
called to prevent an orphan and gatewayTimeout is thrown. -/
def probeLoop : CMState → List Tick → CMState × Option StartErr
  | s, [] =>
    let s := ClusterManager.stop s
    (s, some .gatewayTimeout)
  | s, t :: rest =>
    match t with
    | .tExit c g => probeLoop (exitEvent s c g) rest
    | .tError => probeLoop (errorEvent s) rest
    | .ready =>
      match s.proc with
      | some h => if h.exitCode ≠ none then (s, some (.procDeath h.exitCode)) else (s, none)
      | none => (s, none)
    | .notReady =>
      match s.proc with
      | some h =>
        if h.exitCode ≠ none then (s, some (.procDeath h.exitCode)) else probeLoop s rest
      | none => probeLoop s rest

/-- ClusterManager.start (lines 167-317).  Fails fast when already
running or starting; validates the jar and the configuration directory
(errored on failure); spawns the child with a fresh handle; runs the
readiness probe; on probe success the status becomes running, and any
thrown error lands in the catch block which sets the status to errored
before rethrowing. -/
def ClusterManager.start (s : CMState) (jarOk confOk : Bool) (script : List Tick) :
    CMState × Option StartErr :=
  if s.status = .running ∨ s.status = .starting then (s, some .alreadyRunning)
  else
    let s := setStatus s .starting
    if !jarOk then (setStatus s .errored, some .jarMissing)
    else if !confOk then (setStatus s .errored, some .confMissing)
    else
      let s := { s with proc := some ⟨none⟩ }
      match probeLoop s script with
      | (s, none) => (setStatus s .running, none)
      | (s, some e) => (setStatus s .errored, some e)

/-- Entry points a driver can exercise between which the supervisor is
quiescent: a start call (with its probe script), a stop call, and the
asynchronous process exit / error events. -/
inductive Cmd
  | startCmd (jarOk confOk : Bool) (script : List Tick)
  | stopCmd
  | exitEv (code : Option Int) (signal : Bool)
  | errorEv
deriving Repr

def stepCmd (s : CMState) : Cmd → CMState
  | .startCmd jarOk confOk script => (ClusterManager.start s jarOk confOk script).1
  | .stopCmd => ClusterManager.stop s
  | .exitEv c g => exitEvent s c g
  | .errorEv => errorEvent s

def runCmds (s : CMState) (cmds : List Cmd) : CMState := cmds.foldl stepCmd s

/-- A probe script is well formed when no ready answer follows a process
death or spawn error: the gateway is served by the spawned process, so
it cannot become ready after that process is gone. -/
def noReady (ts : List Tick) : Bool := ts.all (fun t => !(t == Tick.ready))

def wfScript : List Tick → Bool
  | [] => true
  | .ready :: _ => true
  | .notReady :: rest => wfScript rest
  | .tExit _ _ :: rest => noReady rest
  | .tError :: rest => noReady rest

def wfCmd : Cmd → Bool
  | .startCmd _ _ script => wfScript script
  | _ => true

def wfCmds (cmds : List Cmd) : Bool := cmds.all wfCmd

/-- The state-machine edges stated in section 4.1 of the specification. -/
def spec41Edges : List (ClusterStatus × ClusterStatus) :=
  [(.stopped, .starting), (.starting, .running), (.starting, .errored),
   (.running, .stopping), (.stopping, .stopped), (.running, .errored),
   (.errored, .starting)]

/-- The edges the code actually walks: the section 4.1 edges plus the
seven additional edges forced by the implementation (exit observed
outside running resets to stopped; stop from errored or starting; the
probe-timeout cleanup inside start; restart out of a stuck stopping). -/
def observedEdges : List (ClusterStatus × ClusterStatus) :=
  spec41Edges ++
  [(.starting, .stopped), (.running, .stopped), (.errored, .stopped),
   (.starting, .stopping), (.errored, .stopping), (.stopped, .errored),
   (.stopping, .starting)]

/-- Invariant of quiescent supervisor states: a state whose status is
stopping holds no process handle — the only way a stop call leaves the
status at stopping is by skipping the kill/wait block because the handle
was already gone. -/
def CMInv (s : CMState) : Prop :=
  s.status = .stopping → s.proc = none

/-- All recorded status edges lie in the observed edge set. -/
def TransOK (s : CMState) : Prop :=
  ∀ e ∈ s.trans, e ∈ observedEdges

/-! ## FlinkNotebookController / SessionManager (catalogTreeProvider.ts,
second embedded document) -/

inductive OpStatus
  | pending
  | running
  | finished
  | opError
  | canceled
deriving DecidableEq, Repr

/-- The resultType values of a fetched page per the gateway OpenAPI
contract as the code reads them: NOT_READY, PAYLOAD, EOS, and anything
else (handled by the catch-all retry branch). -/
inductive ResultType
  | notReady
  | payload
  | eos
  | otherKind
deriving DecidableEq, Repr

/-- The nextResultUri of a page, as consumed by the code: a URI whose
last slash-separated segment parses to a token, or a slash-free string
(whose parse yields NaN, never greater than the current token). -/
inductive NextUri
  | withTok (n : Nat)
  | bare
deriving DecidableEq, Repr

structure FetchPage where
  resultType : ResultType
  /-- results.data (with the legacy top-level data fallback). -/
  data : List Nat
  /-- Whether results.columns is present on this page. -/
  columns : Bool
  nextResultUri : Option NextUri
deriving DecidableEq, Repr

/-- Phase B, status convergence (fetchResults lines 412-437): poll the
operation status up to 60 times at 1 second; throw on ERROR, break on
FINISHED or RUNNING; when the budget runs out the loop simply exits and
the method continues with the last observed status.  The first
component distinguishes the thrown failure from normal fall-through;
the second is the emitted call trace. -/
def phaseBGo (statusAt : Nat → OpStatus) :
    Nat → Nat → Option OpStatus → Except Unit (Option OpStatus) × List Call
  | _, 0, last => (.ok last, [])
  | attempt, fuel + 1, _ =>
    let st := statusAt attempt
    if st = .opError then (.error (), [.getStatus])
    else if st = .finished ∨ st = .running then (.ok (some st), [.getStatus])
    else
      let p := phaseBGo statusAt (attempt + 1) fuel (some st)
      (p.1, .getStatus :: .sleep 1000 :: p.2)

def maxAttempts : Nat := 60

def phaseB (statusAt : Nat → OpStatus) : Except Unit (Option OpStatus) × List Call :=
  phaseBGo statusAt 0 maxAttempts none

/-- First index below the budget at which the polled status exits the
Phase B loop (ERROR, FINISHED or RUNNING), if any: the reference point
for the Phase B characterisation. -/
def statusExits (st : OpStatus) : Bool :=
  st == .opError || st == .finished || st == .running

def firstExit (statusAt : Nat → OpStatus) : Nat → Nat → Option Nat
  | _, 0 => none
  | attempt, fuel + 1 =>
    if statusExits (statusAt attempt) then some attempt
    else firstExit statusAt (attempt + 1) fuel

/-- The result-classification loop of fetchResults (lines 445-518).
Starting from the result of the initial fetch, up to 60 attempts:
EOS or a payload with rows stops the loop; an empty payload advances to
the offered cursor immediately when it is strictly greater, and
otherwise waits 500 ms and refetches the same cursor (a slash-free or
absent uri never advances); NOT_READY and unexpected kinds wait 500 ms
and refetch the same cursor.  The page oracle is indexed by fetch-call
number; the returned values are the classified page, the cursor, the
next call index and the call trace. -/
structure ClassResult where
  firstResult : FetchPage
  token : Nat
  callIdx : Nat
  trace : List Call
deriving DecidableEq, Repr

def ClassResult.withCall (c : Call) (r : ClassResult) : ClassResult :=
  { r with trace := c :: r.trace }

def ClassResult.withWait (c : Call) (r : ClassResult) : ClassResult :=
  { r with trace := Call.sleep 500 :: c :: r.trace }

def classGo (pageAt : Nat → FetchPage) :
    Nat → FetchPage → Nat → Nat → ClassResult
  | 0, fr, tok, ci => ⟨fr, tok, ci, []⟩
  | fuel + 1, fr, tok, ci =>
    if fr.resultType = .eos then ⟨fr, tok, ci, []⟩
    else if fr.resultType = .payload && !fr.data.isEmpty then ⟨fr, tok, ci, []⟩
    else if fr.resultType = .payload then
      match fr.nextResultUri with
      | some (.withTok n) =>
        if tok < n then
          (classGo pageAt fuel (pageAt ci) n (ci + 1)).withCall (.fetch n)
        else
          (classGo pageAt fuel (pageAt ci) tok (ci + 1)).withWait (.fetch tok)
      | some .bare =>
        (classGo pageAt fuel (pageAt ci) tok (ci + 1)).withWait (.fetch tok)
      | none =>
        (classGo pageAt fuel (pageAt ci) tok (ci + 1)).withWait (.fetch tok)
    else
      (classGo pageAt fuel (pageAt ci) tok (ci + 1)).withWait (.fetch tok)

def maxFetchAttempts : Nat := 60

/-- The streaming classification of fetchResults (lines 533-537): the
statement is streaming iff the classified page kind is not EOS, a
next-cursor is present and the operation status observed in Phase B is
RUNNING. -/
def isStreaming (fr : FetchPage) (statusInfo : Option OpStatus) : Bool :=
  !(fr.resultType == .eos) && fr.nextResultUri.isSome && (statusInfo == some .running)

inductive Mode
  | streamingMode
  | batchMode
deriving DecidableEq, Repr

/-- Cursor extraction for the branch entry (lines 569-574 and 590-599):
parse the last segment of the uri when it contains a slash, else use
token 1. -/
def branchToken (uri : Option NextUri) : Nat :=
  match uri with
  | some (.withTok n) => n
  | _ => 1

structure FetchPhaseResult where
  statusInfo : Option OpStatus
  firstResult : FetchPage
  columns : Bool
  rows : List Nat
  mode : Mode
  /-- Cursor the chosen branch starts from (meaningful when a follow-up
  loop runs). -/
  startToken : Nat
  /-- Next page-oracle index after the classification loop. -/
  callIdx : Nat
  trace : List Call
deriving DecidableEq, Repr

inductive FlowRes
  | failed
  | okR (r : FetchPhaseResult)
deriving DecidableEq, Repr

/-- fetchResults (lines 402-619) through classification: Phase B status
polling, the one-second settling delay, the initial fetch at token 0,
the classification loop, column extraction and first-batch row
consumption (rows are consumed only when data and columns are both
present), and the streaming-versus-batch decision with the branch entry
cursor. -/
def fetchResultsRun (statusAt : Nat → OpStatus) (pageAt : Nat → FetchPage) : FlowRes :=
  match phaseB statusAt with
  | (.error _, _) => .failed
  | (.ok statusInfo, trB) =>
    let fr0 := pageAt 0
    let cr := classGo pageAt maxFetchAttempts fr0 0 1
    let fr := cr.firstResult
    let columns := fr.columns
    let rows := if !fr.data.isEmpty && columns then fr.data else []
    let mode := if isStreaming fr statusInfo then Mode.streamingMode else Mode.batchMode
    .okR
      { statusInfo := statusInfo
        firstResult := fr
        columns := columns
        rows := rows
        mode := mode
        startToken := branchToken fr.nextResultUri
        callIdx := cr.callIdx
        trace := trB ++ [.sleep 1000, .fetch 0] ++ cr.trace }

/-- fetchBatchResults (lines 640-685): fetch pages until EOS or a page
with no next-cursor; rows append only when data and columns are both
present; the cursor moves to the parsed next token, else increments by
one; 100 ms sleep between fetches.  The extra fuel argument bounds the
unbounded source loop; the final Bool reports whether the loop exited
through its own completion test within the given fuel. -/
def fetchBatchResults (pageAt : Nat → FetchPage) (columns : Bool) :
    Nat → Nat → Nat → List Nat → List Nat × Nat × List Call × Bool
  | 0, ci, _tok, rows => (rows, ci, [], false)
  | fuel + 1, ci, tok, rows =>
    let result := pageAt ci
    let rows := if !result.data.isEmpty && columns then rows ++ result.data else rows
    let isComplete := result.resultType == .eos || result.nextResultUri.isNone
    if isComplete then (rows, ci + 1, [.fetch tok], true)
    else
      let tok2 := match result.nextResultUri with
        | some (.withTok n) => n
        | _ => tok + 1
      let (r, c, tr, fin) := fetchBatchResults pageAt columns fuel (ci + 1) tok2 rows
      (r, c, .fetch tok :: .sleep 100 :: tr, fin)

structure BatchRunResult where
  rows : List Nat
  trace : List Call
  completed : Bool
deriving DecidableEq, Repr

/-- The full batch path of fetchResults: classification followed by — when
the classified page is not terminal — the batch fetch loop at the parsed
branch cursor (lines 586-615). -/
def runBatchFlow (statusAt : Nat → OpStatus) (pageAt : Nat → FetchPage) (fuel : Nat) :
    Option BatchRunResult :=
  match fetchResultsRun statusAt pageAt with
  | .failed => none
  | .okR r =>
    if r.mode = .streamingMode then none
    else
      let isComplete := r.firstResult.resultType == .eos || r.firstResult.nextResultUri.isNone
      if isComplete then some ⟨r.rows, r.trace, true⟩
      else
        let (rows, _, tr, fin) :=
          fetchBatchResults pageAt r.columns fuel r.callIdx r.startToken r.rows
        some ⟨rows, r.trace ++ tr, fin⟩

/-! ### The streaming loop (fetchStreamingResults, lines 690-859) and its
external controls (stopStreaming, pauseStreaming, resumeStreaming,
cancelOperation, lines 1025-1127). -/

structure SubInfo where
  stopRequested : Bool
  paused : Bool
deriving DecidableEq, Repr

/-- External control actions on one cell's streaming subscription.  The
loop reads the subscription from the registry map afresh each iteration,
so the actions operate on the map entry. -/
inductive ExtAction
  | cancelAction
  | stopAction
  | pauseAction
  | resumeAction
deriving DecidableEq, Repr

/-- cancelOperation (lines 1101-1127) sets stopRequested on the map
entry, issues the remote cancel, and then deletes the map entry, so the
flag write is unobservable to later map lookups.  stopStreaming
(lines 1025-1033) only sets the flag.  pauseStreaming and
resumeStreaming (lines 1038-1096) only toggle the paused flag (their
metadata/UI refreshes are display-only and traced by nothing remote).
All four are no-ops when the cell has no live subscription. -/
def applyAction : Option SubInfo × List Call → ExtAction → Option SubInfo × List Call
  | (some _, tr), .cancelAction => (none, tr ++ [Call.cancelCall])
  | (some info, tr), .stopAction => (some { info with stopRequested := true }, tr)
  | (some info, tr), .pauseAction => (some { info with paused := true }, tr)
  | (some info, tr), .resumeAction => (some { info with paused := false }, tr)
  | (none, tr), _ => (none, tr)

/-- What one fetch attempt of the streaming loop runs into: a page, or a
thrown fetch error together with the outcome of the follow-up status
query (none when the status query itself throws). -/
inductive FetchOutcome
  | page (p : FetchPage)
  | fetchErr (statusResult : Option OpStatus)
deriving DecidableEq, Repr

/-- One loop iteration's environment: the external control actions that
landed since the previous iteration, the fetch outcome (consulted only
if the iteration fetches), and the user's answer to the row-cap prompt
(consulted only if the cap is hit). -/
structure IterInput where
  acts : List ExtAction
  outcome : FetchOutcome
  contChoice : Bool
deriving DecidableEq, Repr

inductive SnapStatus
  | streamingSnap
  | canceledSnap
  | errorSnap
  | finalSnap
deriving DecidableEq, Repr

structure StreamState where
  sub : Option SubInfo
  token : Nat
  rows : List Nat
  trace : List Call
  snaps : List (SnapStatus × List Nat)
deriving DecidableEq, Repr

/-- The while loop of fetchStreamingResults (lines 709-848), one script
entry per iteration.  Each iteration re-reads the subscription from the
registry: a set stopRequested flag emits the terminal canceled snapshot
and breaks; a set paused flag sleeps one poll interval and re-checks;
otherwise the next page is fetched at the current cursor.  New rows
append and emit an incremental snapshot; EOS or a missing next-cursor
completes the loop; the row cap prompts and a declined prompt breaks
without any remote cancel; a fetch error triggers a status query whose
ERROR/CANCELED (or its own failure) ends the loop with a terminal
snapshot and whose any other outcome waits 2 s and retries the same
cursor.  Returns some wasCancelled when the loop exited, none when the
script (fuel) ran out first. -/
def streamGo (pollInterval maxRows : Nat) (columns : Bool) :
    List IterInput → StreamState → StreamState × Option Bool
  | [], s => (s, none)
  | inp :: rest, s =>
    let acted := inp.acts.foldl applyAction (s.sub, s.trace)
    let s := { s with sub := acted.1, trace := acted.2 }
    if (s.sub.map (·.stopRequested)).getD false then
      ({ s with snaps := s.snaps ++ [(.canceledSnap, s.rows)] }, some true)
    else if (s.sub.map (·.paused)).getD false then
      streamGo pollInterval maxRows columns rest
        { s with trace := s.trace ++ [.sleep pollInterval] }
    else
      let s := { s with trace := s.trace ++ [.fetch s.token] }
      match inp.outcome with
      | .page p =>
        let s :=
          if !p.data.isEmpty && columns then
            { s with rows := s.rows ++ p.data,
                     snaps := s.snaps ++ [(.streamingSnap, s.rows ++ p.data)] }
          else s
        if p.resultType == .eos || p.nextResultUri.isNone then (s, some false)
        else
          let tok2 := match p.nextResultUri with
            | some (.withTok n) => n
            | _ => s.token + 1
          let s := { s with token := tok2 }
          if maxRows > 0 && s.rows.length ≥ maxRows && !inp.contChoice then (s, some false)
          else
            streamGo pollInterval maxRows columns rest
              { s with trace := s.trace ++ [.sleep pollInterval] }
      | .fetchErr stRes =>
        let s := { s with trace := s.trace ++ [Call.getStatus] }
        match stRes with
        | some st =>
          if st = .opError ∨ st = .canceled then
            ({ s with snaps := s.snaps ++
                 [((if st = .canceled then SnapStatus.canceledSnap else SnapStatus.errorSnap),
                   s.rows)] },
             some true)
          else
            streamGo pollInterval maxRows columns rest
              { s with trace := s.trace ++ [Call.sleep 2000] }
        | none =>
          ({ s with snaps := s.snaps ++ [(SnapStatus.canceledSnap, s.rows)] }, some true)

/-- fetchStreamingResults including the epilogue (lines 850-858): when
the loop exited without cancellation one final plain snapshot is
emitted, and the subscription entry is removed. -/
def fetchStreamingResults (pollInterval maxRows : Nat) (columns : Bool)
    (inputs : List IterInput) (init : StreamState) : StreamState × Option Bool :=
  match streamGo pollInterval maxRows columns inputs init with
  | (s, some wasCancelled) =>
    let s := if !wasCancelled then { s with snaps := s.snaps ++ [(.finalSnap, s.rows)] } else s
    ({ s with sub := none }, some wasCancelled)
  | (s, none) => (s, none)

/-! ### SessionManager.closeSession (lines 1226-1231) over
SqlGatewayClient.closeSession (a plain DELETE whose rejection
propagates, second README document lines 208-210). -/

inductive GwErr
  | notFound
  | otherErr
deriving DecidableEq, Repr

/-- SessionManager.closeSession: no-op without a cached session id;
otherwise one remote close whose failure propagates unchanged to the
caller (the SqlGatewayClient wrapper has no catch), clearing the cached
id only on success.  Returns (call result, cached id afterwards,
calls). -/
def closeSession (current : Option String) (respond : String → Except GwErr Unit) :
    Except GwErr Unit × Option String × List Call :=
  match current with
  | none => (Except.ok (), none, [])
  | some id =>
    match respond id with
    | .ok _ => (Except.ok (), none, [Call.closeSess])
    | .error e => (Except.error e, some id, [Call.closeSess])

/-! ## Concrete scenario inputs used by the claim theorems, witnesses and
counterexamples -/

def pageNotReady : FetchPage := ⟨.notReady, [], false, none⟩

def pagePayloadRows : FetchPage := ⟨.payload, [10, 11, 12], true, some (.withTok 2)⟩

def pageEmptyNext2 : FetchPage := ⟨.payload, [], true, some (.withTok 2)⟩

def pageEmptyNext3 : FetchPage := ⟨.payload, [], true, some (.withTok 3)⟩

def pageEos : FetchPage := ⟨.eos, [], true, none⟩

/-- The scripted page sequence of the specification's section 8 test:
NotReady, NotReady, Payload(rows=3, next=T2), Payload(rows=0, next=T2),
Payload(rows=0, next=T3), EndOfStream — indexed by fetch-call number. -/
def script6 : List FetchPage :=
  [pageNotReady, pageNotReady, pagePayloadRows, pageEmptyNext2, pageEmptyNext3, pageEos]

def pageAt6 (i : Nat) : FetchPage := script6.getD i pageEos

/-- The classification result of the section 8 script under a RUNNING
status, spelled out: the classified page is the three-row payload, the
statement is streaming starting at cursor 2. -/
def c7SampleResult : FetchPhaseResult :=
  { statusInfo := some .running
    firstResult := pagePayloadRows
    columns := true
    rows := [10, 11, 12]
    mode := .streamingMode
    startToken := 2
    callIdx := 3
    trace := [.getStatus, .sleep 1000, .fetch 0, .sleep 500, .fetch 0, .sleep 500, .fetch 0] }

/-- A live streaming subscription mid-run: cursor 1, one row already
accumulated, neither stopped nor paused. -/
def streamInit1 : StreamState := ⟨some ⟨false, false⟩, 1, [0], [], []⟩

def pageRow1 : FetchPage := ⟨.payload, [1], true, some (.withTok 2)⟩

def pageRow2 : FetchPage := ⟨.payload, [2], true, some (.withTok 3)⟩

/-- cancelOperation lands between two loop iterations; the remote keeps
serving pages afterwards (the remote cancel has not yet taken effect). -/
def c1CancelInputs : List IterInput :=
  [⟨[.cancelAction], .page pageRow1, true⟩,
   ⟨[], .page pageRow2, true⟩,
   ⟨[], .page pageEos, true⟩]

/-- The same schedule, but the stop arrives through stopStreaming, which
sets the flag without deleting the subscription entry. -/
def c1StopInputs : List IterInput :=
  [⟨[.stopAction], .page pageRow1, true⟩,
   ⟨[], .page pageRow2, true⟩,
   ⟨[], .page pageEos, true⟩]

/-- Probe script in which the child dies (exit code 1) two probe ticks
into the readiness window, with the remaining window never ready. -/
def script5Death : List Tick :=
  [.notReady, .notReady, .tExit (some 1) false] ++ List.replicate 27 .notReady

/-- Probe script in which the child stays alive but the gateway never
becomes ready within the window. -/
def script5Alive : List Tick := List.replicate 30 .notReady

/-- Sequential driver run: a successful start, an unexpected crash with
exit code 1, then a stop request. -/
def c4Cmds : List Cmd :=
  [.startCmd true true [.ready], .exitEv (some 1) false, .stopCmd]

/-! ## Helper lemmas -/

theorem notify_eq_map (hs : List CrashHandler) (code : Option Int) :
    notifyCrashHandlers hs code = hs.map (fun h => h code) := by
  induction hs with
  | nil => rfl
  | cons h t ih => simp [notifyCrashHandlers, ih]

theorem isStreaming_iff (fr : FetchPage) (st : Option OpStatus) :
    isStreaming fr st = true ↔
      (fr.resultType ≠ .eos ∧ fr.nextResultUri.isSome = true ∧ st = some .running) := by
  simp [isStreaming, and_assoc]

/-! ## Claim theorems -/

/-- C10: notifyCrashHandlers invokes each registered handler exactly once
in registration order, and a throwing handler is caught (its outcome is
logged in place) without preventing the remaining handlers from running
or escaping the supervisor: the outcome list is exactly the in-order
image of the handler list. -/
theorem c10_notify_each_handler_once :
    ∀ (hs : List CrashHandler) (code : Option Int),
      notifyCrashHandlers hs code = hs.map (fun h => h code) ∧
      (notifyCrashHandlers hs code).length = hs.length := by
  intro hs code
  refine ⟨notify_eq_map hs code, ?_⟩
  rw [notify_eq_map]
  simp

/-- C3: an unexpected exit (status Running, exit code nonzero or signal
kill) notifies every registered handler exactly once, in order, with the
observed code; an exit during a requested stop (status Stopping)
notifies nobody; a spawn-level error notifies every handler once with no
exit code; and an exit following a spawn-level error produces no second
broadcast, so no single crash notifies a handler twice. -/
theorem c3_crash_broadcast :
    ∀ (st : ClusterStatus) (code : Option Int) (signal : Bool) (hs : List CrashHandler),
      (st = .running → code ≠ some 0 ∨ signal = true →
        (handleExit st code signal hs).2 = hs.map (fun h => h code)) ∧
      (st = .stopping → (handleExit st code signal hs).2 = []) ∧
      ((handleError st hs).2 = hs.map (fun h => h none)) ∧
      ((handleExit (handleError st hs).1 code signal hs).2 = []) := by
  intro st code signal hs
  refine ⟨?_, ?_, ?_, ?_⟩
  · rintro rfl hc
    have hu : exitUnexpected .running code signal = true := by
      rcases hc with hc | hc
      · simp [exitUnexpected, hc]
      · simp [exitUnexpected, hc]
    simp [handleExit, hu, notify_eq_map]
  · rintro rfl
    simp [handleExit, exitUnexpected]
  · simp [handleError, notify_eq_map]
  · simp [handleError, handleExit, exitUnexpected]

theorem c3_crash_broadcast_witness :
    (handleExit .running (some 1) false [fun _ => Except.ok ()]).2 = [Except.ok ()] := by
  have h := (c3_crash_broadcast .running (some 1) false [fun _ => Except.ok ()]).1 rfl
    (Or.inl (by decide))
  simpa using h

/-- C9 counterexample: with a cached session id, a not-found rejection of
the remote close is not swallowed — SessionManager.closeSession
propagates it to the caller (and keeps the cached id), contradicting the
claim that a not-found-style error is swallowed. -/
theorem c9_counterexample :
    closeSession (some "sess") (fun _ => Except.error .notFound) =
      (Except.error GwErr.notFound, some "sess", [Call.closeSess]) ∧
    (Except.error GwErr.notFound : Except GwErr Unit) ≠ Except.ok () := by
  exact ⟨rfl, fun h => Except.noConfusion h⟩

/-- C9 (amended): closeSession is a no-op performing no remote call when
no session id is cached; with a cached id it performs exactly one remote
close and propagates every failure — including not-found — unchanged to
the caller, clearing the cached id only on success. -/
theorem c9_amended_close_session :
    ∀ (current : Option String) (respond : String → Except GwErr Unit),
      (current = none → closeSession current respond = (Except.ok (), none, [])) ∧
      (∀ id, current = some id →
        (closeSession current respond).2.2 = [Call.closeSess] ∧
        (∀ e, respond id = .error e →
          closeSession current respond = (Except.error e, some id, [Call.closeSess])) ∧
        (respond id = .ok () →
          closeSession current respond = (Except.ok (), none, [Call.closeSess]))) := by
  intro current respond
  constructor
  · rintro rfl; rfl
  · rintro id rfl
    refine ⟨?_, ?_, ?_⟩
    · cases h : respond id <;> simp [closeSession, h]
    · intro e he; simp [closeSession, he]
    · intro he; simp [closeSession, he]

theorem c9_amended_close_session_witness :
    closeSession (some "s1") (fun _ => Except.error GwErr.otherErr) =
      (Except.error GwErr.otherErr, some "s1", [Call.closeSess]) :=
  ((c9_amended_close_session (some "s1") (fun _ => Except.error GwErr.otherErr)).2 "s1"
    rfl).2.1 GwErr.otherErr rfl

/-- C2 counterexample: when the status never becomes ready, the Phase B
loop exhausts its 60-attempt budget and falls through with the last
observed status instead of surfacing a timeout failure — fetchResults
proceeds to the fetch phase as if the operation were ready. -/
theorem c2_counterexample :
    (phaseB (fun _ => OpStatus.pending)).1 = Except.ok (some OpStatus.pending) ∧
    (phaseB (fun _ => OpStatus.pending)).1 ≠ Except.error () ∧
    fetchResultsRun (fun _ => OpStatus.pending) (fun _ => pageEos) ≠ FlowRes.failed := by
  refine ⟨by decide, by decide, by decide⟩

/-- C1 (code bug, evaluated at the failing input): after cancelOperation
lands between two loop iterations — setting stopRequested and then
deleting the subscription entry the loop reads — the streaming loop
never observes the stop request: it performs three further fetch calls,
keeps the rows fetched after the cancel, and ends with a plain final
snapshot, not a canceled one.  Under stopStreaming, which sets the flag
without deleting the entry, the very next iteration emits the terminal
canceled snapshot with only the pre-cancel rows and issues no further
fetch — the behaviour the claim describes. -/
theorem c1_cancel_observed :
    fetchStreamingResults 500 0 true c1CancelInputs streamInit1 =
      (⟨none, 3, [0, 1, 2],
        [.cancelCall, .fetch 1, .sleep 500, .fetch 2, .sleep 500, .fetch 3],
        [(.streamingSnap, [0, 1]), (.streamingSnap, [0, 1, 2]), (.finalSnap, [0, 1, 2])]⟩,
       some false) ∧
    ((fetchStreamingResults 500 0 true c1CancelInputs streamInit1).1.trace.countP
        Call.isFetch) = 3 ∧
    fetchStreamingResults 500 0 true c1StopInputs streamInit1 =
      (⟨none, 1, [0], [], [(.canceledSnap, [0])]⟩, some true) := by
  refine ⟨by decide, by decide, by decide⟩

/-- C5 (code bug, evaluated at the failing input): when the child dies
two ticks into the readiness window, the exit observer clears the
process field in the same atomic step that records the exit code, so
waitForGateway's early-abort check never fires — start() polls out the
whole window and fails with the gateway timeout error, not with the
process's exit code.  When the window elapses with the child alive, the
process is killed (stopping to stopped) and start() reports the failure
with no live process left. -/
theorem c5_probe_death_timeout :
    ClusterManager.start initCM true true script5Death =
      (⟨.errored, none, [(.stopped, .starting), (.starting, .stopped), (.stopped, .errored)]⟩,
       some .gatewayTimeout) ∧
    (ClusterManager.start initCM true true script5Death).2 ≠ some (.procDeath (some 1)) ∧
    ClusterManager.start initCM true true script5Alive =
      (⟨.errored, none,
        [(.stopped, .starting), (.starting, .stopping), (.stopping, .stopped),
         (.stopped, .errored)]⟩,
       some .gatewayTimeout) := by
  refine ⟨by decide, by decide, by decide⟩

/-- C4 counterexample: the sequential run start, crash (exit code 1),
stop walks the edge Errored to Stopping — which is not a section 4.1
edge — and the stop() that began in the non-Stopped state Errored leaves
the state Stopping forever (no process handle remains, so the kill/wait
block that would reach Stopped is skipped). -/
theorem c4_counterexample :
    runCmds initCM c4Cmds =
      ⟨.stopping, none,
       [(.stopped, .starting), (.starting, .running), (.running, .errored),
        (.errored, .stopping)]⟩ ∧
    ((ClusterStatus.errored, ClusterStatus.stopping) ∈ (runCmds initCM c4Cmds).trans ∧
      (ClusterStatus.errored, ClusterStatus.stopping) ∉ spec41Edges) ∧
    (runCmds initCM c4Cmds).status ≠ .stopped := by
  refine ⟨by decide, ⟨by decide, by decide⟩, by decide⟩

/-- C6: on the section 8 scripted page sequence the fetch pipeline
accumulates exactly the three rows of the single data page and
terminates after consuming the script (six fetch calls, no page counted
twice); and in general the classification loop reacts to an empty
payload page by advancing to the offered cursor immediately (no wait)
exactly when it is strictly greater than the current one, and by waiting
and refetching the same cursor when it does not advance or is absent. -/
theorem c6_scripted_pages :
    (runBatchFlow (fun _ => OpStatus.finished) pageAt6 10 =
      some ⟨[10, 11, 12],
        [.getStatus, .sleep 1000, .fetch 0, .sleep 500, .fetch 0, .sleep 500, .fetch 0,
         .fetch 2, .sleep 100, .fetch 2, .sleep 100, .fetch 3], true⟩ ∧
      ((runBatchFlow (fun _ => OpStatus.finished) pageAt6 10).map
          (fun r => r.trace.countP Call.isFetch)) = some 6) ∧
    (∀ (pageAt : Nat → FetchPage) (fuel : Nat) (fr : FetchPage) (tok ci n : Nat),
      fr.resultType = .payload → fr.data = [] →
      (fr.nextResultUri = some (.withTok n) → tok < n →
        classGo pageAt (fuel + 1) fr tok ci =
          (classGo pageAt fuel (pageAt ci) n (ci + 1)).withCall (.fetch n)) ∧
      (fr.nextResultUri = some (.withTok n) → ¬ tok < n →
        classGo pageAt (fuel + 1) fr tok ci =
          (classGo pageAt fuel (pageAt ci) tok (ci + 1)).withWait (.fetch tok)) ∧
      (fr.nextResultUri = none →
        classGo pageAt (fuel + 1) fr tok ci =
          (classGo pageAt fuel (pageAt ci) tok (ci + 1)).withWait (.fetch tok))) := by
  constructor
  · exact ⟨by decide, by decide⟩
  · intro pageAt fuel fr tok ci n hpay hdata
    refine ⟨?_, ?_, ?_⟩
    · intro huri hlt
      simp [classGo, hpay, hdata, huri, hlt]
    · intro huri hlt
      simp [classGo, hpay, hdata, huri, hlt]
    · intro huri
      simp [classGo, hpay, hdata, huri]

theorem c6_scripted_pages_witness :
    classGo pageAt6 1 ⟨.payload, [], true, some (.withTok 5)⟩ 2 0 =
      (classGo pageAt6 0 (pageAt6 0) 5 1).withCall (.fetch 5) :=
  ((c6_scripted_pages.2 pageAt6 0 ⟨.payload, [], true, some (.withTok 5)⟩ 2 0 5) rfl rfl).1
    rfl (by decide)

/-- C7: a statement is classified streaming exactly when, after the
classification loop settles on its page, that page's kind is not EOS, a
next-cursor is present, and the Phase B status is RUNNING; every other
combination yields the batch branch. -/
theorem c7_streaming_iff :
    ∀ (statusAt : Nat → OpStatus) (pageAt : Nat → FetchPage) (r : FetchPhaseResult),
      fetchResultsRun statusAt pageAt = .okR r →
      (r.mode = .streamingMode ↔
        (r.firstResult.resultType ≠ .eos ∧ r.firstResult.nextResultUri.isSome = true ∧
          r.statusInfo = some .running)) := by
  intro statusAt pageAt r h
  unfold fetchResultsRun at h
  rcases hpb : phaseB statusAt with ⟨res, tr⟩
  rw [hpb] at h
  cases res with
  | error e => exact FlowRes.noConfusion h
  | ok statusInfo =>
    have h2 := FlowRes.okR.inj h
    subst h2
    by_cases hs : isStreaming (classGo pageAt maxFetchAttempts (pageAt 0) 0 1).firstResult
        statusInfo = true
    · simp only [hs, if_true]
      simpa using (isStreaming_iff _ _).mp hs
    · have hs2 : isStreaming (classGo pageAt maxFetchAttempts (pageAt 0) 0 1).firstResult
          statusInfo = false := by
        revert hs
        cases isStreaming (classGo pageAt maxFetchAttempts (pageAt 0) 0 1).firstResult
            statusInfo <;> simp
      simp only [hs2, if_false]
      constructor
      · intro hmode
        exact absurd hmode (by simp)
      · intro hr
        exact absurd ((isStreaming_iff _ _).mpr (by simpa using hr)) (by simp [hs2])

theorem phaseBGo_ready (statusAt : Nat → OpStatus) :
    ∀ (i : Nat), ∀ (fuel a : Nat) (last : Option OpStatus),
      i < fuel →
      (∀ j, j < i → statusExits (statusAt (a + j)) = false) →
      (statusAt (a + i) = .finished ∨ statusAt (a + i) = .running) →
      (phaseBGo statusAt a fuel last).1 = .ok (some (statusAt (a + i))) := by
  intro i
  induction i with
  | zero =>
    intro fuel a last hfuel _ hready
    cases fuel with
    | zero => omega
    | succ f =>
      rw [Nat.add_zero] at hready ⊢
      rcases hready with h | h <;> simp [phaseBGo, h]
  | succ i ih =>
    intro fuel a last hfuel hskip hready
    cases fuel with
    | zero => omega
    | succ f =>
      have h0 : statusExits (statusAt a) = false := by
        have := hskip 0 (by omega)
        simpa using this
      have hsh : ∀ j, j < i → statusExits (statusAt (a + 1 + j)) = false := by
        intro j hj
        have := hskip (j + 1) (by omega)
        have he : a + (j + 1) = a + 1 + j := by omega
        rwa [he] at this
      have hrh : statusAt (a + 1 + i) = .finished ∨ statusAt (a + 1 + i) = .running := by
        have he : a + (i + 1) = a + 1 + i := by omega
        rwa [he] at hready
      have hrec := ih f (a + 1) (some (statusAt a)) (by omega) hsh hrh
      have he : a + 1 + i = a + (i + 1) := by omega
      rw [he] at hrec
      rcases hsa : statusAt a with _ | _ | _ | _ | _ <;>
        rw [hsa] at h0 <;> simp [statusExits] at h0 <;>
        simpa [phaseBGo, hsa] using hrec

theorem phaseBGo_error (statusAt : Nat → OpStatus) :
    ∀ (i : Nat), ∀ (fuel a : Nat) (last : Option OpStatus),
      i < fuel →
      (∀ j, j < i → statusExits (statusAt (a + j)) = false) →
      statusAt (a + i) = .opError →
      (phaseBGo statusAt a fuel last).1 = .error () := by
  intro i
  induction i with
  | zero =>
    intro fuel a last hfuel _ herr
    cases fuel with
    | zero => omega
    | succ f =>
      rw [Nat.add_zero] at herr
      simp [phaseBGo, herr]
  | succ i ih =>
    intro fuel a last hfuel hskip herr
    cases fuel with
    | zero => omega
    | succ f =>
      have h0 : statusExits (statusAt a) = false := by
        have := hskip 0 (by omega)
        simpa using this
      have hsh : ∀ j, j < i → statusExits (statusAt (a + 1 + j)) = false := by
        intro j hj
        have := hskip (j + 1) (by omega)
        have he : a + (j + 1) = a + 1 + j := by omega
        rwa [he] at this
      have hrh : statusAt (a + 1 + i) = .opError := by
        have he : a + (i + 1) = a + 1 + i := by omega
        rwa [he] at herr
      have hrec := ih f (a + 1) (some (statusAt a)) (by omega) hsh hrh
      rcases hsa : statusAt a with _ | _ | _ | _ | _ <;>
        rw [hsa] at h0 <;> simp [statusExits] at h0 <;>
        simpa [phaseBGo, hsa] using hrec

theorem phaseBGo_noexit (statusAt : Nat → OpStatus) :
    ∀ (fuel a : Nat) (last : Option OpStatus),
      0 < fuel →
      (∀ j, j < fuel → statusExits (statusAt (a + j)) = false) →
      (phaseBGo statusAt a fuel last).1 = .ok (some (statusAt (a + fuel - 1))) := by
  intro fuel
  induction fuel with
  | zero => omega
  | succ f ih =>
    intro a last _ hskip
    have h0 : statusExits (statusAt a) = false := by
      have := hskip 0 (by omega)
      simpa using this
    cases f with
    | zero =>
      rcases hsa : statusAt a with _ | _ | _ | _ | _ <;>
        rw [hsa] at h0 <;> simp [statusExits] at h0 <;>
        simp [phaseBGo, hsa]
    | succ f2 =>
      have hsh : ∀ j, j < f2 + 1 → statusExits (statusAt (a + 1 + j)) = false := by
        intro j hj
        have := hskip (j + 1) (by omega)
        have he : a + (j + 1) = a + 1 + j := by omega
        rwa [he] at this
      have hrec := ih (a + 1) (some (statusAt a)) (by omega) hsh
      have he : a + 1 + (f2 + 1) - 1 = a + (f2 + 1 + 1) - 1 := by omega
      rw [he] at hrec
      rcases hsa : statusAt a with _ | _ | _ | _ | _ <;>
        rw [hsa] at h0 <;> simp [statusExits] at h0 <;>
        simpa [phaseBGo, hsa] using hrec

theorem phaseBGo_trace (statusAt : Nat → OpStatus) :
    ∀ (fuel a : Nat) (last : Option OpStatus),
      ∀ c ∈ (phaseBGo statusAt a fuel last).2,
        c = Call.getStatus ∨ ∃ ms, c = Call.sleep ms := by
  intro fuel
  induction fuel with
  | zero => intro a last c hc; simp [phaseBGo] at hc
  | succ f ih =>
    intro a last c hc
    by_cases h1 : statusAt a = .opError
    · simp [phaseBGo, h1] at hc
      exact Or.inl hc
    · by_cases h2 : statusAt a = .finished ∨ statusAt a = .running
      · simp [phaseBGo, h1, h2] at hc
        exact Or.inl hc
      · simp only [phaseBGo, h1, h2, if_false, List.mem_cons] at hc
        rcases hc with rfl | hc
        · exact Or.inl rfl
        · rcases hc with rfl | hc
          · exact Or.inr ⟨1000, rfl⟩
          · exact ih (a + 1) (some (statusAt a)) c hc

/-- C2 (amended): the Phase B loop exits with the first status that is
RUNNING or FINISHED, ends the statement immediately with a failure on
the first ERROR, and — when the 60-attempt budget is exhausted without
any of these — falls through successfully with the last observed status
so that fetching proceeds (no timeout failure is surfaced); throughout,
the loop issues only status polls and sleeps, never a cancel of the
remote operation. -/
theorem c2_amended_status_loop :
    ∀ statusAt : Nat → OpStatus,
      (∀ i, i < maxAttempts → (∀ j, j < i → statusExits (statusAt j) = false) →
        (statusAt i = .finished ∨ statusAt i = .running) →
        (phaseB statusAt).1 = .ok (some (statusAt i))) ∧
      (∀ i, i < maxAttempts → (∀ j, j < i → statusExits (statusAt j) = false) →
        statusAt i = .opError → (phaseB statusAt).1 = .error ()) ∧
      ((∀ j, j < maxAttempts → statusExits (statusAt j) = false) →
        (phaseB statusAt).1 = .ok (some (statusAt (maxAttempts - 1)))) ∧
      (∀ c ∈ (phaseB statusAt).2, c = Call.getStatus ∨ ∃ ms, c = Call.sleep ms) := by
  intro statusAt
  refine ⟨?_, ?_, ?_, ?_⟩
  · intro i hi hskip hready
    have := phaseBGo_ready statusAt i maxAttempts 0 none hi
      (by intro j hj; simpa using hskip j hj) (by simpa using hready)
    simpa [phaseB] using this
  · intro i hi hskip herr
    have := phaseBGo_error statusAt i maxAttempts 0 none hi
      (by intro j hj; simpa using hskip j hj) (by simpa using herr)
    simpa [phaseB] using this
  · intro hskip
    have := phaseBGo_noexit statusAt maxAttempts 0 none (by decide)
      (by intro j hj; simpa using hskip j hj)
    simpa [phaseB] using this
  · intro c hc
    exact phaseBGo_trace statusAt maxAttempts 0 none c hc

theorem c2_amended_status_loop_witness :
    (phaseB (fun i => if i < 2 then OpStatus.pending else OpStatus.running)).1 =
      Except.ok (some OpStatus.running) := by
  have h := (c2_amended_status_loop (fun i => if i < 2 then OpStatus.pending
      else OpStatus.running)).1 2 (by decide) (by decide) (Or.inr (by decide))
  simpa using h

theorem setStatus_status (s : CMState) (st : ClusterStatus) : (setStatus s st).status = st := by
  unfold setStatus
  split
  · assumption
  · rfl

theorem setStatus_proc (s : CMState) (st : ClusterStatus) : (setStatus s st).proc = s.proc := by
  unfold setStatus
  split <;> rfl

theorem setStatus_self (s : CMState) (st : ClusterStatus) (h : s.status = st) :
    setStatus s st = s := by
  unfold setStatus
  rw [if_pos h]

theorem setStatus_transOK (s : CMState) (st : ClusterStatus) (hT : TransOK s)
    (h : (s.status, st) ∈ observedEdges ∨ s.status = st) : TransOK (setStatus s st) := by
  unfold setStatus
  split
  · exact hT
  · rename_i hne
    intro e he
    rcases List.mem_append.mp he with he | he
    · exact hT e he
    · rw [List.mem_singleton.mp he]
      rcases h with h | h
      · exact h
      · exact absurd h hne

theorem exitUnexpected_running_eq (st : ClusterStatus) (c : Option Int) (g : Bool) :
    exitUnexpected st c g = true → st = .running := by
  cases st <;> simp [exitUnexpected]

theorem exitEvent_of_some (s : CMState) (c : Option Int) (g : Bool) (h : Handle)
    (hp : s.proc = some h) :
    exitEvent s c g =
      { setStatus s (if exitUnexpected s.status c g then .errored else .stopped) with
        proc := none } := by
  unfold exitEvent
  rw [hp]

theorem exitEvent_of_none (s : CMState) (c : Option Int) (g : Bool) (hp : s.proc = none) :
    exitEvent s c g = s := by
  unfold exitEvent
  rw [hp]

theorem exitEvent_transOK (s : CMState) (c : Option Int) (g : Bool) (hT : TransOK s) :
    TransOK (exitEvent s c g) := by
  unfold exitEvent
  split
  · exact hT
  · have hedge : (s.status, if exitUnexpected s.status c g then ClusterStatus.errored
        else ClusterStatus.stopped) ∈ observedEdges ∨
        s.status = (if exitUnexpected s.status c g then ClusterStatus.errored
          else ClusterStatus.stopped) := by
      by_cases hu : exitUnexpected s.status c g = true
      · have hrun := exitUnexpected_running_eq s.status c g hu
        rw [if_pos hu, hrun]
        left; decide
      · rw [if_neg hu]
        cases hst : s.status with
        | stopped => right; rfl
        | starting => left; decide
        | running => left; decide
        | stopping => left; decide
        | errored => left; decide
    exact setStatus_transOK s _ hT hedge

theorem exitEvent_inv (s : CMState) (c : Option Int) (g : Bool) (hI : CMInv s) :
    CMInv (exitEvent s c g) := by
  unfold exitEvent
  split
  · exact hI
  · intro _
    rfl

theorem errorEvent_transOK (s : CMState) (hI : CMInv s) (hT : TransOK s) :
    TransOK (errorEvent s) := by
  unfold errorEvent
  split
  · exact hT
  · rename_i h hp
    have hedge : (s.status, ClusterStatus.errored) ∈ observedEdges ∨
        s.status = ClusterStatus.errored := by
      cases hst : s.status with
      | stopped => left; decide
      | starting => left; decide
      | running => left; decide
      | stopping =>
        rw [hI hst] at hp
        cases hp
      | errored => right; rfl
    exact setStatus_transOK s _ hT hedge

theorem errorEvent_inv (s : CMState) (hI : CMInv s) : CMInv (errorEvent s) := by
  unfold errorEvent
  split
  · exact hI
  · intro hstop
    rw [setStatus_status] at hstop
    cases hstop

theorem stop_of_stopped (s : CMState) (h : s.status = .stopped) :
    ClusterManager.stop s = s := by
  unfold ClusterManager.stop
  rw [if_pos h]

theorem stop_none (s : CMState) (hne : s.status ≠ .stopped) (hp : s.proc = none) :
    ClusterManager.stop s = setStatus s .stopping := by
  unfold ClusterManager.stop
  rw [if_neg hne]
  have hps : (setStatus s .stopping).proc = none := by rw [setStatus_proc]; exact hp
  simp only [hps]

theorem stop_some (s : CMState) (h : Handle) (hne : s.status ≠ .stopped)
    (hp : s.proc = some h) :
    (ClusterManager.stop s).status = .stopped ∧ (ClusterManager.stop s).proc = none := by
  unfold ClusterManager.stop
  rw [if_neg hne]
  have hps : (setStatus s .stopping).proc = some h := by rw [setStatus_proc]; exact hp
  simp only [hps]
  constructor
  · rw [setStatus_status]
  · rw [setStatus_proc]

theorem stop_transOK (s : CMState) (hT : TransOK s) : TransOK (ClusterManager.stop s) := by
  unfold ClusterManager.stop
  split
  · exact hT
  · rename_i hne
    have hT1 : TransOK (setStatus s .stopping) := by
      apply setStatus_transOK s _ hT
      cases hst : s.status with
      | stopped => exact absurd hst hne
      | starting => left; decide
      | running => left; decide
      | stopping => right; rfl
      | errored => left; decide
    cases hps : (setStatus s .stopping).proc with
    | none =>
      simp only [hps]
      exact hT1
    | some h =>
      simp only [hps]
      have hT2 : TransOK (exitEvent (setStatus s .stopping) none true) :=
        exitEvent_transOK _ none true hT1
      have hE := exitEvent_of_some (setStatus s .stopping) none true h hps
      have hst2 : (exitEvent (setStatus s .stopping) none true).status = .stopped := by
        rw [hE]
        show (setStatus (setStatus s .stopping) _).status = .stopped
        rw [setStatus_status, setStatus_status]
        simp [exitUnexpected]
      have hT3 : TransOK
          ({ exitEvent (setStatus s .stopping) none true with proc := none } : CMState) := hT2
      apply setStatus_transOK _ _ hT3
      right
      exact hst2

theorem stop_inv (s : CMState) : CMInv (ClusterManager.stop s) := by
  by_cases h : s.status = .stopped
  · rw [stop_of_stopped s h]
    intro hstop
    rw [h] at hstop
    cases hstop
  · cases hp : s.proc with
    | none =>
      rw [stop_none s h hp]
      intro _
      rw [setStatus_proc]
      exact hp
    | some hh =>
      intro hstop
      rw [(stop_some s hh h hp).1] at hstop
      cases hstop

theorem noReady_cons (t : Tick) (ts : List Tick) (h : noReady (t :: ts) = true) :
    noReady ts = true := by
  simp [noReady] at h ⊢
  exact h.2

theorem probeLoop_ok :
    ∀ (ts : List Tick) (s : CMState),
      TransOK s →
      ((s.status = .starting ∧ s.proc = some ⟨none⟩ ∧ wfScript ts = true) ∨
        (((s.status = .errored ∧ s.proc = some ⟨none⟩) ∨
          (s.status = .stopped ∧ s.proc = none)) ∧ noReady ts = true)) →
      TransOK (probeLoop s ts).1 ∧
      ((probeLoop s ts).2 = none → (probeLoop s ts).1.status = .starting) ∧
      ((probeLoop s ts).2 ≠ none →
        (probeLoop s ts).1.status = .stopped ∧ (probeLoop s ts).1.proc = none) := by
  intro ts
  induction ts with
  | nil =>
    intro s hT hpre
    simp only [probeLoop]
    refine ⟨stop_transOK s hT, fun h => Option.noConfusion h, fun _ => ?_⟩
    rcases hpre with ⟨hst, hp, _⟩ | ⟨hev, _⟩
    · exact stop_some s ⟨none⟩ (by rw [hst]; decide) hp
    · rcases hev with ⟨hst, hp⟩ | ⟨hst, hp⟩
      · exact stop_some s ⟨none⟩ (by rw [hst]; decide) hp
      · rw [stop_of_stopped s hst]
        exact ⟨hst, hp⟩
  | cons t rest ih =>
    intro s hT hpre
    cases t with
    | ready =>
      rcases hpre with ⟨hst, hp, _⟩ | ⟨_, hnr⟩
      · simp only [probeLoop, hp]
        refine ⟨hT, fun _ => hst, fun hcon => absurd rfl hcon⟩
      · exact absurd hnr (by simp [noReady])
    | notReady =>
      rcases hpre with ⟨hst, hp, hwf⟩ | ⟨hev, hnr⟩
      · simp only [probeLoop, hp]
        exact ih s hT (Or.inl ⟨hst, hp, by simpa [wfScript] using hwf⟩)
      · rcases hev with ⟨hst, hp⟩ | ⟨hst, hp⟩
        · simp only [probeLoop, hp]
          exact ih s hT (Or.inr ⟨Or.inl ⟨hst, hp⟩, noReady_cons _ _ hnr⟩)
        · simp only [probeLoop, hp]
          exact ih s hT (Or.inr ⟨Or.inr ⟨hst, hp⟩, noReady_cons _ _ hnr⟩)
    | tExit c g =>
      have hT2 := exitEvent_transOK s c g hT
      rcases hpre with ⟨hst, hp, hwf⟩ | ⟨hev, hnr⟩
      · have hE := exitEvent_of_some s c g ⟨none⟩ hp
        have hst2 : (exitEvent s c g).status = .stopped := by
          rw [hE]
          show (setStatus s _).status = .stopped
          rw [setStatus_status, hst]
          simp [exitUnexpected]
        have hp2 : (exitEvent s c g).proc = none := by rw [hE]
        have hnr2 : noReady rest = true := by simpa [wfScript] using hwf
        simp only [probeLoop]
        exact ih (exitEvent s c g) hT2 (Or.inr ⟨Or.inr ⟨hst2, hp2⟩, hnr2⟩)
      · rcases hev with ⟨hst, hp⟩ | ⟨hst, hp⟩
        · have hE := exitEvent_of_some s c g ⟨none⟩ hp
          have hst2 : (exitEvent s c g).status = .stopped := by
            rw [hE]
            show (setStatus s _).status = .stopped
            rw [setStatus_status, hst]
            simp [exitUnexpected]
          have hp2 : (exitEvent s c g).proc = none := by rw [hE]
          simp only [probeLoop]
          exact ih (exitEvent s c g) hT2
            (Or.inr ⟨Or.inr ⟨hst2, hp2⟩, noReady_cons _ _ hnr⟩)
        · have hE := exitEvent_of_none s c g hp
          simp only [probeLoop, hE]
          exact ih s hT (Or.inr ⟨Or.inr ⟨hst, hp⟩, noReady_cons _ _ hnr⟩)
    | tError =>
      rcases hpre with ⟨hst, hp, hwf⟩ | ⟨hev, hnr⟩
      · have hE : errorEvent s = setStatus s .errored := by
          unfold errorEvent
          rw [hp]
        have hT2 : TransOK (setStatus s .errored) := by
          apply setStatus_transOK s _ hT
          rw [hst]
          left; decide
        have hst2 : (setStatus s .errored).status = .errored := setStatus_status s _
        have hp2 : (setStatus s .errored).proc = some ⟨none⟩ := by
          rw [setStatus_proc]; exact hp
        have hnr2 : noReady rest = true := by simpa [wfScript] using hwf
        simp only [probeLoop, hE]
        exact ih (setStatus s .errored) hT2 (Or.inr ⟨Or.inl ⟨hst2, hp2⟩, hnr2⟩)
      · rcases hev with ⟨hst, hp⟩ | ⟨hst, hp⟩
        · have hE : errorEvent s = s := by
            unfold errorEvent
            rw [hp]
            exact setStatus_self s _ hst
          simp only [probeLoop, hE]
          exact ih s hT (Or.inr ⟨Or.inl ⟨hst, hp⟩, noReady_cons _ _ hnr⟩)
        · have hE : errorEvent s = s := by
            unfold errorEvent
            rw [hp]
          simp only [probeLoop, hE]
          exact ih s hT (Or.inr ⟨Or.inr ⟨hst, hp⟩, noReady_cons _ _ hnr⟩)

theorem start_ok (s : CMState) (jarOk confOk : Bool) (script : List Tick)
    (hT : TransOK s) (hI : CMInv s) (hwf : wfScript script = true) :
    TransOK (ClusterManager.start s jarOk confOk script).1 ∧
    CMInv (ClusterManager.start s jarOk confOk script).1 := by
  unfold ClusterManager.start
  split
  · exact ⟨hT, hI⟩
  · rename_i hguard
    push_neg at hguard
    have hT1 : TransOK (setStatus s .starting) := by
      apply setStatus_transOK s _ hT
      cases hst : s.status with
      | stopped => left; decide
      | starting => exact absurd hst hguard.2
      | running => exact absurd hst hguard.1
      | stopping => left; decide
      | errored => left; decide
    split
    · constructor
      · apply setStatus_transOK _ _ hT1
        rw [setStatus_status]
        left; decide
      · intro hstop
        rw [setStatus_status] at hstop
        cases hstop
    · split
      · constructor
        · apply setStatus_transOK _ _ hT1
          rw [setStatus_status]
          left; decide
        · intro hstop
          rw [setStatus_status] at hstop
          cases hstop
      · have hpre : ({ setStatus s .starting with proc := some ⟨none⟩ } : CMState).status =
            .starting ∧
            ({ setStatus s .starting with proc := some ⟨none⟩ } : CMState).proc =
              some ⟨none⟩ ∧ wfScript script = true := by
          refine ⟨?_, rfl, hwf⟩
          show (setStatus s .starting).status = .starting
          rw [setStatus_status]
        have hpl := probeLoop_ok script { setStatus s .starting with proc := some ⟨none⟩ }
          hT1 (Or.inl hpre)
        rcases hplr : probeLoop { setStatus s .starting with proc := some ⟨none⟩ } script
          with ⟨s3, out⟩
        rw [hplr] at hpl
        simp only [hplr]
        cases out with
        | none =>
          have hst3 : s3.status = .starting := hpl.2.1 rfl
          constructor
          · apply setStatus_transOK _ _ hpl.1
            rw [hst3]
            left; decide
          · intro hstop
            rw [setStatus_status] at hstop
            cases hstop
        | some e =>
          have hst3 := hpl.2.2 (by simp)
          constructor
          · apply setStatus_transOK _ _ hpl.1
            rw [hst3.1]
            left; decide
          · intro hstop
            rw [setStatus_status] at hstop
            cases hstop

theorem stepCmd_ok (s : CMState) (c : Cmd) (hT : TransOK s) (hI : CMInv s)
    (hwf : wfCmd c = true) : TransOK (stepCmd s c) ∧ CMInv (stepCmd s c) := by
  cases c with
  | startCmd j k script => exact start_ok s j k script hT hI (by simpa [wfCmd] using hwf)
  | stopCmd => exact ⟨stop_transOK s hT, stop_inv s⟩
  | exitEv c g => exact ⟨exitEvent_transOK s c g hT, exitEvent_inv s c g hI⟩
  | errorEv => exact ⟨errorEvent_transOK s hI hT, errorEvent_inv s hI⟩

theorem runCmds_ok :
    ∀ (cmds : List Cmd) (s : CMState), TransOK s → CMInv s → wfCmds cmds = true →
      TransOK (runCmds s cmds) ∧ CMInv (runCmds s cmds) := by
  intro cmds
  induction cmds with
  | nil => intro s hT hI _; exact ⟨hT, hI⟩
  | cons c rest ih =>
    intro s hT hI hwf
    have hw1 : wfCmd c = true ∧ wfCmds rest = true := by simpa [wfCmds] using hwf
    have h1 := stepCmd_ok s c hT hI hw1.1
    simpa [runCmds, List.foldl_cons] using ih (stepCmd s c) h1.1 h1.2 hw1.2

/-- C4 (amended): under any sequence of start, stop and process
exit/error events (with readiness answers only while the child lives),
the status walks only the section 4.1 edges extended by the seven edges
the implementation actually takes — Starting to Stopped and Running to
Stopped (exit observed outside a crash), Errored to Stopped (exit after
a spawn error), Starting to Stopping and Stopped to Errored (the
probe-timeout cleanup inside start), Errored to Stopping and Stopping to
Starting (stop from Errored sticks at Stopping when no handle remains,
from where a new start may run).  A stop beginning in a non-Stopped
state ends Stopped exactly when a live process handle exists; with no
handle it ends — and stays — Stopping. -/
theorem c4_amended_observed_edges :
    ∀ cmds : List Cmd, wfCmds cmds = true →
      (∀ e ∈ (runCmds initCM cmds).trans, e ∈ observedEdges) ∧
      ((runCmds initCM cmds).status ≠ .stopped →
        (ClusterManager.stop (runCmds initCM cmds)).status =
          (if (runCmds initCM cmds).proc.isSome then ClusterStatus.stopped
            else ClusterStatus.stopping)) := by
  intro cmds hwf
  have h := runCmds_ok cmds initCM (by intro e he; simp [initCM] at he)
    (by intro hstop; exact absurd hstop (by decide)) hwf
  refine ⟨h.1, ?_⟩
  intro hns
  cases hp : (runCmds initCM cmds).proc with
  | none =>
    rw [stop_none _ hns hp, setStatus_status]
    simp
  | some hh =>
    rw [(stop_some _ hh hns hp).1]
    simp

theorem c4_amended_observed_edges_witness :
    (ClusterManager.stop (runCmds initCM c4Cmds)).status = .stopping := by
  have h := (c4_amended_observed_edges c4Cmds (by decide)).2 (by decide)
  have hp : (runCmds initCM c4Cmds).proc = none := by decide
  rw [hp] at h
  simpa using h

theorem streamGo_paused (p m : Nat) (c : Bool) :
    ∀ (inputs : List IterInput) (s : StreamState) (info : SubInfo),
      s.sub = some info → info.paused = true → info.stopRequested = false →
      (∀ inp ∈ inputs, inp.acts = ([] : List ExtAction)) →
      streamGo p m c inputs s =
        ({ s with trace := s.trace ++ List.replicate inputs.length (Call.sleep p) }, none) := by
  intro inputs
  induction inputs with
  | nil =>
    intro s info _ _ _ _
    simp [streamGo]
  | cons inp rest ih =>
    intro s info hsub hpaused hstop hacts
    have ha : inp.acts = [] := hacts inp (by simp)
    have hrest : ∀ i ∈ rest, i.acts = ([] : List ExtAction) := fun i hi =>
      hacts i (by simp [hi])
    have hrec := ih { s with trace := s.trace ++ [Call.sleep p] } info (by simpa using hsub)
      hpaused hstop hrest
    rw [hsub] at hrec
    simp only [streamGo, ha, List.foldl_nil]
    simp [hsub, hstop, hpaused, List.replicate_succ, List.append_assoc]
    simpa using hrec

theorem streamGo_resume (p m : Nat) (c : Bool) :
    ∀ (inputs : List IterInput) (s : StreamState) (info : SubInfo) (pg : FetchPage),
      s.sub = some info → info.paused = true → info.stopRequested = false →
      (∀ inp ∈ inputs, inp.acts = ([] : List ExtAction)) →
      pg.resultType = .eos → pg.data = [] →
      streamGo p m c (inputs ++ [⟨[.resumeAction], .page pg, true⟩]) s =
        ({ s with sub := some { info with paused := false },
                  trace := s.trace ++ List.replicate inputs.length (Call.sleep p)
                    ++ [Call.fetch s.token] }, some false) := by
  intro inputs
  induction inputs with
  | nil =>
    intro s info pg hsub hpaused hstop _ hres hdata
    simp only [List.nil_append, streamGo, List.foldl_cons, List.foldl_nil]
    simp [applyAction, hsub, hstop, hres, hdata]
  | cons inp rest ih =>
    intro s info pg hsub hpaused hstop hacts hres hdata
    have ha : inp.acts = [] := hacts inp (by simp)
    have hrest : ∀ i ∈ rest, i.acts = ([] : List ExtAction) := fun i hi =>
      hacts i (by simp [hi])
    have hrec := ih { s with trace := s.trace ++ [Call.sleep p] } info pg
      (by simpa using hsub) hpaused hstop hrest hres hdata
    rw [hsub, hstop] at hrec
    simp only [List.cons_append, streamGo, ha, List.foldl_nil]
    simp [hsub, hstop, hpaused, List.replicate_succ, List.append_assoc]
    simpa using hrec

/-- C8: while the paused flag of a live subscription is set, the
streaming loop issues zero fetch calls — each iteration only sleeps one
poll interval, with cursor and rows untouched; the first fetch after a
resume uses exactly the cursor held when paused (no page is refetched);
and the pauseStreaming / resumeStreaming actions themselves add no call
against the remote operation. -/
theorem c8_pause_resume :
    (∀ (p m : Nat) (c : Bool) (inputs : List IterInput) (s : StreamState) (info : SubInfo),
      s.sub = some info → info.paused = true → info.stopRequested = false →
      (∀ inp ∈ inputs, inp.acts = ([] : List ExtAction)) →
      streamGo p m c inputs s =
        ({ s with trace := s.trace ++ List.replicate inputs.length (Call.sleep p) }, none)) ∧
    (∀ (p m : Nat) (c : Bool) (inputs : List IterInput) (s : StreamState) (info : SubInfo)
        (pg : FetchPage),
      s.sub = some info → info.paused = true → info.stopRequested = false →
      (∀ inp ∈ inputs, inp.acts = ([] : List ExtAction)) →
      pg.resultType = .eos → pg.data = [] →
      streamGo p m c (inputs ++ [⟨[.resumeAction], .page pg, true⟩]) s =
        ({ s with sub := some { info with paused := false },
                  trace := s.trace ++ List.replicate inputs.length (Call.sleep p)
                    ++ [Call.fetch s.token] }, some false)) ∧
    (∀ (sub : Option SubInfo) (tr : List Call),
      (applyAction (sub, tr) .pauseAction).2 = tr ∧
      (applyAction (sub, tr) .resumeAction).2 = tr) := by
  refine ⟨?_, ?_, ?_⟩
  · intro p m c inputs s info hsub hpaused hstop hacts
    exact streamGo_paused p m c inputs s info hsub hpaused hstop hacts
  · intro p m c inputs s info pg hsub hpaused hstop hacts hres hdata
    exact streamGo_resume p m c inputs s info pg hsub hpaused hstop hacts hres hdata
  · intro sub tr
    cases sub <;> exact ⟨rfl, rfl⟩

theorem c8_pause_resume_witness :
    streamGo 500 0 true
      [⟨[], .page pageEos, true⟩, ⟨[], .page pageEos, true⟩]
      ⟨some ⟨false, true⟩, 4, [7], [], []⟩ =
      (⟨some ⟨false, true⟩, 4, [7], [Call.sleep 500, Call.sleep 500], []⟩, none) := by
  have h := c8_pause_resume.1 500 0 true
    [⟨[], .page pageEos, true⟩, ⟨[], .page pageEos, true⟩]
    ⟨some ⟨false, true⟩, 4, [7], [], []⟩ ⟨false, true⟩ rfl rfl rfl (by decide)
  simpa using h

theorem c7_streaming_iff_witness :
    fetchResultsRun (fun _ => OpStatus.running) pageAt6 = .okR c7SampleResult ∧
    c7SampleResult.mode = .streamingMode := by
  have hrun : fetchResultsRun (fun _ => OpStatus.running) pageAt6 = .okR c7SampleResult := by
    decide
  refine ⟨hrun, ?_⟩
  exact (c7_streaming_iff (fun _ => OpStatus.running) pageAt6 c7SampleResult hrun).mpr
    ⟨by decide, by decide, rfl⟩

end FlinkNotebooks
